import Mathlib

/-!
Shallow embedding of the `eqsolver` C++ module (eqsolver.h / eqsolver.cpp):
an exact-rational Gauss-Jordan equation solver over a sign-magnitude
fraction type with 32-bit unsigned storage and eager overflow checking.

Machine integers are modelled as `Nat`/`Int`; every place where the C code
stores a value into a 32-bit field takes `% U32MOD` (assignment to
`unsigned int` truncates mod 2^32), and the `UINT64`/`INT64` intermediate
checks are modelled as exact `Nat`/`Int` arithmetic, which is what the
64-bit hardware computes for operands that fit in 32 bits.
-/

/-- Constant `UINT32MAX` from eqsolver.h line 30: the value used by every
unsigned overflow check.  The source defines it as `42946972195` (note:
this is not `2^32 - 1 = 4294967295`). -/
def UINT32MAX : Nat := 42946972195

/-- Constant `INT32MAX` from eqsolver.h. -/
def INT32MAX : Int := 2147483647

/-- Constant `INT32MIN` from eqsolver.h. -/
def INT32MIN : Int := -2147483648

/-- Modulus of C `unsigned int` arithmetic (32-bit): 2^32. -/
def U32MOD : Nat := 4294967296

/-- Status code `SOLVED` (eqsolver.h `#define SOLVED 0x0001`). -/
def SOLVED : Nat := 1

/-- Status code `NO_SOLUTIONS` (0x0002). -/
def NO_SOLUTIONS : Nat := 2

/-- Status code `INFINITE_SOLUTIONS` (0x0003). -/
def INFINITE_SOLUTIONS : Nat := 3

/-- Status code `MEMORY_ERROR` (0x0004). -/
def MEMORY_ERROR : Nat := 4

/-- Status code `OVERFLOW` (0x0005). -/
def OVERFLOW : Nat := 5

/-- Two's-complement reinterpretation of a value reduced mod 2^32 as a
signed 32-bit integer: models C's conversion of 32-bit results to `int`. -/
def toInt32 (z : Int) : Int :=
  let m := z % 4294967296
  if m < 2147483648 then m else m - 4294967296

/-- The C type `struct fraction` from eqsolver.h: sign-magnitude rational with
unsigned 32-bit numerator and denominator and a separate sign word
(1 = negative, 0 = non-negative).  The canonical zero is
`numerator = 0, denominator = 0, sign = 0`. -/
structure Fraction where
  numerator : Nat
  denominator : Nat
  sign : Nat
deriving DecidableEq

/-- A coefficient matrix: row-and-column indexed fractions (the C code's
`struct fraction **`).  All engine accesses stay inside the allocated
`N x (N+1)` region, so a total function is an adequate model. -/
abbrev Mat := Nat → Nat → Fraction

/-- Pointwise update of one matrix cell (a C assignment
`m[r][c] = v`). -/
def setCell (M : Mat) (r c : Nat) (v : Fraction) : Mat :=
  fun r2 c2 => if r2 = r ∧ c2 = c then v else M r2 c2

/-- Euclid's algorithm exactly as the `while (num2)` loop inside
`eqsolver::reduce` computes it, with an explicit fuel argument for
structural recursion.  Each iteration replaces `num2` by `num1 % num2`,
which is strictly smaller, so fuel `num2 + 1` always suffices and the
function then returns exactly what the C loop leaves in `gcf`. -/
def gcdGo : Nat → Nat → Nat → Nat
  | 0, num1, _ => num1
  | fuel + 1, num1, num2 => if num2 = 0 then num1 else gcdGo fuel num2 (num1 % num2)

/-- Model of `eqsolver::reduce` (eqsolver.cpp 315-358): zero sentinel and unit
fraction are shortcut cases; otherwise divide both magnitudes by their
greatest common factor.  The sign passes through unchanged. -/
def reduce (unreducedFraction : Fraction) : Fraction :=
  if unreducedFraction.numerator = 0 ∨ unreducedFraction.denominator = 0 then
    ⟨0, 0, 0⟩
  else if unreducedFraction.numerator = unreducedFraction.denominator then
    ⟨1, 1, unreducedFraction.sign⟩
  else
    let gcf := gcdGo (unreducedFraction.denominator + 1)
      unreducedFraction.numerator unreducedFraction.denominator
    ⟨unreducedFraction.numerator / gcf, unreducedFraction.denominator / gcf,
      unreducedFraction.sign⟩

/-- Model of `eqsolver::divide` (eqsolver.cpp 372-429).  Division is reciprocal
multiplication; each cross product is checked in 64-bit precision against
`UINT32MAX` before the 32-bit store (modelled by `% U32MOD`); the boolean
result is true exactly when the C code sets the `overFlow` member. -/
def divide (dividend divisor : Fraction) : Fraction × Bool :=
  let numCheck : Nat := dividend.numerator * divisor.denominator
  if numCheck > UINT32MAX then (⟨0, 0, 0⟩, true)
  else
    let rnum : Nat := numCheck % U32MOD
    let denCheck : Nat := dividend.denominator * divisor.numerator
    if denCheck > UINT32MAX then (⟨0, 0, 0⟩, true)
    else
      let rden : Nat := denCheck % U32MOD
      if rnum ≠ 0 ∧ rden = 0 then (dividend, false)
      else
        let rsign : Nat :=
          if dividend.sign = 1 then (if divisor.sign = 1 then 0 else 1)
          else (if divisor.sign = 1 then 1 else 0)
        (reduce ⟨rnum, rden, rsign⟩, false)

/-- Model of `eqsolver::multiply` (eqsolver.cpp 443-498): numerator times numerator
and denominator times denominator, each checked against `UINT32MAX` in
64-bit precision before the 32-bit store, sign combined by parity, result
reduced. -/
def multiply (fraction1 fraction2 : Fraction) : Fraction × Bool :=
  let numCheck : Nat := fraction1.numerator * fraction2.numerator
  if numCheck > UINT32MAX then (⟨0, 0, 0⟩, true)
  else
    let rnum : Nat := numCheck % U32MOD
    let denCheck : Nat := fraction1.denominator * fraction2.denominator
    if denCheck > UINT32MAX then (⟨0, 0, 0⟩, true)
    else
      let rden : Nat := denCheck % U32MOD
      if rnum ≠ 0 ∧ rden = 0 then (fraction1, false)
      else
        let rsign : Nat :=
          if fraction1.sign = 1 then (if fraction2.sign = 1 then 0 else 1)
          else (if fraction2.sign = 1 then 1 else 0)
        (reduce ⟨rnum, rden, rsign⟩, false)

/-- Shared tail of `eqsolver::add` (eqsolver.cpp 646-666): set the result
denominator with its overflow check, apply the divide-by-zero guard that
returns `fraction1` unaltered, and reduce. -/
def addFinish (fraction1 fraction2 : Fraction) (rnum rsign : Nat) : Fraction × Bool :=
  let denCheck : Nat := fraction1.denominator * fraction2.denominator
  if denCheck > UINT32MAX then (⟨0, 0, 0⟩, true)
  else
    let rden : Nat := denCheck % U32MOD
    if rnum ≠ 0 ∧ rden = 0 then (fraction1, false)
    else (reduce ⟨rnum, rden, rsign⟩, false)

/-- Model of `eqsolver::add` (eqsolver.cpp 511-667).  Zero-sentinel operands
short-circuit.  Two non-negative operands take the unsigned 64-bit path
(the C code leaves `result.sign` unset there; both operands being
non-negative, it is modelled as 0).  Otherwise the signed path checks each
signed numerator, both signed cross products and the signed sum against
the 32-bit `int` bounds; note that the second numerator test at source
line 587 re-tests `num1OverflowCheckWithSign`, which is reproduced here
verbatim.  The native 32-bit sum of the C code is modelled by `toInt32`
of the exact sum, which agrees with two's-complement evaluation. -/
def add (fraction1 fraction2 : Fraction) : Fraction × Bool :=
  if fraction1.numerator = 0 ∧ fraction1.denominator = 0 then (fraction2, false)
  else if fraction2.numerator = 0 ∧ fraction2.denominator = 0 then (fraction1, false)
  else if fraction1.sign = 0 ∧ fraction2.sign = 0 then
    let numCheck : Nat :=
      fraction1.numerator * fraction2.denominator +
        fraction2.numerator * fraction1.denominator
    if numCheck > UINT32MAX then (⟨0, 0, 0⟩, true)
    else addFinish fraction1 fraction2 (numCheck % U32MOD) 0
  else
    let num1check : Int :=
      if fraction1.sign = 1 then -(fraction1.numerator : Int)
      else (fraction1.numerator : Int)
    if (if fraction1.sign = 1 then num1check < INT32MIN else num1check > INT32MAX) then
      (⟨0, 0, 0⟩, true)
    else
      let num2check : Int :=
        if fraction2.sign = 1 then -(fraction2.numerator : Int)
        else (fraction2.numerator : Int)
      if (if fraction2.sign = 1 then num2check < INT32MIN else num1check > INT32MAX) then
        (⟨0, 0, 0⟩, true)
      else
        let check1 : Int := num1check * (fraction2.denominator : Int)
        if check1 > INT32MAX ∨ check1 < INT32MIN then (⟨0, 0, 0⟩, true)
        else
          let check2 : Int := num2check * (fraction1.denominator : Int)
          if check2 > INT32MAX ∨ check2 < INT32MIN then (⟨0, 0, 0⟩, true)
          else
            let checkSum : Int :=
              num1check * (fraction2.denominator : Int) +
                num2check * (fraction1.denominator : Int)
            if checkSum > INT32MAX ∨ checkSum < INT32MIN then (⟨0, 0, 0⟩, true)
            else
              let resultNum : Int := toInt32 checkSum
              addFinish fraction1 fraction2 resultNum.natAbs
                (if resultNum < 0 then 1 else 0)

/-- The `eqsolver` object's data members (eqsolver.h 61-97): the working
matrix `coefficient`, the untouched `originalCoefficient`, the equation
count, the overflow flag (C `int`, modelled as `Bool`) and the solution
vector. -/
structure EqState where
  coefficient : Mat
  originalCoefficient : Mat
  eqCount : Nat
  overFlow : Bool
  solutionCoefficient : List Fraction

/-- The freshly constructed solver (the constructor in eqsolver.h):
no equations, clear flag.  Unallocated storage is modelled as
all-sentinel. -/
def initialState : EqState :=
  { coefficient := fun _ _ => ⟨0, 0, 0⟩
    originalCoefficient := fun _ _ => ⟨0, 0, 0⟩
    eqCount := 0
    overFlow := false
    solutionCoefficient := [] }

/-- Model of `eqsolver::setSystemEqCount` (eqsolver.cpp 41-90): count 0 is a no-op;
otherwise both matrices and the solution storage are allocated and
zero-initialized.  Allocation always succeeds in the model, so the result
code is always 1. -/
def setSystemEqCount (s : EqState) (count : Nat) : Nat × EqState :=
  if count = 0 then (1, s)
  else
    (1, { s with
          eqCount := count
          coefficient := fun _ _ => ⟨0, 0, 0⟩
          originalCoefficient := fun _ _ => ⟨0, 0, 0⟩
          solutionCoefficient := List.replicate count ⟨0, 0, 0⟩ })

/-- Model of `eqsolver::setCoefficient` (eqsolver.cpp 105-138): 1-indexed, silent
no-op out of bounds; stores magnitude/sign with denominator 1, or the
0/0 form for value 0, into both matrices. -/
def setCoefficient (s : EqState) (row column : Nat) (value : Int) : EqState :=
  if s.eqCount < row ∨ s.eqCount + 1 < column ∨ row < 1 ∨ column < 1 then s
  else
    let f : Fraction :=
      ⟨value.natAbs, if value = 0 then 0 else 1, if value < 0 then 1 else 0⟩
    { s with
      coefficient := setCell s.coefficient (row - 1) (column - 1) f
      originalCoefficient := setCell s.originalCoefficient (row - 1) (column - 1) f }

/-- Model of `eqsolver::setCoefficientFraction` (eqsolver.cpp 156-207): 1-indexed,
silent no-op out of bounds.  A zero denominator forces numerator and
denominator to 0; the sign is then set from the signs of the two
arguments (negative exactly when they differ in sign, a zero denominator
counting as non-negative). -/
def setCoefficientFraction (s : EqState) (row column : Nat)
    (numerator denominator : Int) : EqState :=
  if s.eqCount < row ∨ s.eqCount + 1 < column ∨ row < 1 ∨ column < 1 then s
  else
    let rnum : Nat := if denominator = 0 then 0 else numerator.natAbs
    let rden : Nat := if denominator = 0 then 0 else denominator.natAbs
    let rsign : Nat :=
      if numerator < 0 then (if denominator < 0 then 0 else 1)
      else (if denominator < 0 then 1 else 0)
    let f : Fraction := ⟨rnum, rden, rsign⟩
    { s with
      coefficient := setCell s.coefficient (row - 1) (column - 1) f
      originalCoefficient := setCell s.originalCoefficient (row - 1) (column - 1) f }

/-- Model of `eqsolver::getOriginalMatrixCoefficient` (eqsolver.cpp 221-235):
0 when out of bounds, otherwise the stored numerator reinterpreted as a
signed `int` and negated when the sign word is 1. -/
def getOriginalMatrixCoefficient (s : EqState) (row column : Nat) : Int :=
  if s.eqCount < row ∨ s.eqCount + 1 < column ∨ row < 1 ∨ column < 1 then 0
  else
    let f := s.originalCoefficient (row - 1) (column - 1)
    let v := toInt32 (f.numerator : Int)
    if f.sign = 1 then toInt32 (-v) else v

/-- Model of `eqsolver::getOriginalMatrixCoefficientFraction` (eqsolver.cpp
238-254): zeroes both outputs when out of bounds, otherwise signed
numerator and raw denominator. -/
def getOriginalMatrixCoefficientFraction (s : EqState) (row column : Nat) :
    Int × Int :=
  if s.eqCount < row ∨ s.eqCount + 1 < column ∨ row < 1 ∨ column < 1 then (0, 0)
  else
    let f := s.originalCoefficient (row - 1) (column - 1)
    let v := toInt32 (f.numerator : Int)
    (if f.sign = 1 then toInt32 (-v) else v, toInt32 (f.denominator : Int))

/-- Model of `eqsolver::getAlteredMatrixCoefficient` (eqsolver.cpp 268-277): writes
through a reference parameter; out of bounds it leaves the caller's value
untouched, so the model takes and returns that value. -/
def getAlteredMatrixCoefficient (s : EqState) (row column : Nat)
    (coefficientValue : Fraction) : Fraction :=
  if s.eqCount < row ∨ s.eqCount + 1 < column ∨ row < 1 ∨ column < 1 then
    coefficientValue
  else s.coefficient (row - 1) (column - 1)

/-- Private `eqsolver::swapRows` (eqsolver.cpp 293-304): 1-indexed row
pointer exchange on the given matrix, bounds-checked no-op. -/
def swapRowsC (row1 row2 : Nat) (M : Mat) (N : Nat) : Mat :=
  if row1 < 1 ∨ row2 < 1 ∨ N < row1 ∨ N < row2 then M
  else fun r c =>
    if r = row1 - 1 then M (row2 - 1) c
    else if r = row2 - 1 then M (row1 - 1) c
    else M r c

/-- Column loop of `eqsolver::multiplyMatrixRow` (eqsolver.cpp 690-694):
each entry is multiplied and stored, then the overflow flag is checked
and the loop aborts leaving the remaining entries unmodified.  The fuel
argument counts the remaining iterations (called with `N + 1` from column
0). -/
def mulRowGo (multiplier : Fraction) (rowIdx N : Nat) :
    Nat → Nat → Mat → Bool → Mat × Bool
  | _, 0, M, ov => (M, ov)
  | col, k + 1, M, ov =>
    if col < N + 1 then
      let p := multiply (M rowIdx col) multiplier
      let M2 := setCell M rowIdx col p.1
      if ov || p.2 then (M2, true)
      else mulRowGo multiplier rowIdx N (col + 1) k M2 (ov || p.2)
    else (M, ov)

/-- Private `eqsolver::multiplyMatrixRow` (eqsolver.cpp 681-695):
1-indexed, bounds-checked no-op. -/
def multiplyMatrixRowC (row : Nat) (multiplier : Fraction) (M : Mat) (N : Nat)
    (ov : Bool) : Mat × Bool :=
  if row < 1 ∨ N < row then (M, ov)
  else mulRowGo multiplier (row - 1) N 0 (N + 1) M ov

/-- Column loop of `eqsolver::divideMatrixRow` (eqsolver.cpp 718-722). -/
def divRowGo (divisor : Fraction) (rowIdx N : Nat) :
    Nat → Nat → Mat → Bool → Mat × Bool
  | _, 0, M, ov => (M, ov)
  | col, k + 1, M, ov =>
    if col < N + 1 then
      let p := divide (M rowIdx col) divisor
      let M2 := setCell M rowIdx col p.1
      if ov || p.2 then (M2, true)
      else divRowGo divisor rowIdx N (col + 1) k M2 (ov || p.2)
    else (M, ov)

/-- Private `eqsolver::divideMatrixRow` (eqsolver.cpp 709-723). -/
def divideMatrixRowC (row : Nat) (divisor : Fraction) (M : Mat) (N : Nat)
    (ov : Bool) : Mat × Bool :=
  if row < 1 ∨ N < row then (M, ov)
  else divRowGo divisor (row - 1) N 0 (N + 1) M ov

/-- Column loop of `eqsolver::addMatrixRows` (eqsolver.cpp 746-750): adds
the current value of row `srcIdx` into row `rowIdx`, entry by entry, with
the same overflow abort. -/
def addRowsGo (rowIdx srcIdx N : Nat) :
    Nat → Nat → Mat → Bool → Mat × Bool
  | _, 0, M, ov => (M, ov)
  | col, k + 1, M, ov =>
    if col < N + 1 then
      let p := add (M rowIdx col) (M srcIdx col)
      let M2 := setCell M rowIdx col p.1
      if ov || p.2 then (M2, true)
      else addRowsGo rowIdx srcIdx N (col + 1) k M2 (ov || p.2)
    else (M, ov)

/-- Private `eqsolver::addMatrixRows` (eqsolver.cpp 737-751). -/
def addMatrixRowsC (row rowToAdd : Nat) (M : Mat) (N : Nat) (ov : Bool) :
    Mat × Bool :=
  if row < 1 ∨ N < row ∨ rowToAdd < 1 ∨ N < rowToAdd then (M, ov)
  else addRowsGo (row - 1) (rowToAdd - 1) N 0 (N + 1) M ov

/-- Sign-negation pass over one pivot row (eqsolver.cpp 976-985 and
1020-1028): every non-sentinel entry of the row, across all `N + 1`
columns, has its sign bit flipped. -/
def negateRowSigns (M : Mat) (row N : Nat) : Mat :=
  (List.range (N + 1)).foldl
    (fun acc i =>
      if (acc row i).numerator = 0 ∧ (acc row i).denominator = 0 then acc
      else setCell acc row i
        ⟨(acc row i).numerator, (acc row i).denominator,
          if (acc row i).sign = 0 then 1 else 0⟩)
    M

/-- One elimination step for a target row `r` (body of the loops at
eqsolver.cpp 988-1001 and 1004-1017): skip when the target's entry in the
pivot column is the sentinel; otherwise scale the pivot row by that entry,
add it into the target row, and scale the pivot row back, aborting at the
first overflow. -/
def clearStep (M : Mat) (N row column r : Nat) : Mat × Bool :=
  if (M r column).numerator = 0 ∧ (M r column).denominator = 0 then (M, false)
  else
    let multiplier := M r column
    let a := multiplyMatrixRowC (row + 1) multiplier M N false
    if a.2 then (a.1, true)
    else
      let b := addMatrixRowsC (r + 1) (row + 1) a.1 N false
      if b.2 then (b.1, true)
      else divideMatrixRowC (row + 1) multiplier b.1 N false

/-- Downward loop `for (rowCounter = row-1; rowCounter >= 0; rowCounter--)`
(eqsolver.cpp 988): called with the pivot row index as counter, it clears
rows `row - 1` down to 0. -/
def clearAboveGo (N row column : Nat) : Nat → Mat → Mat × Bool
  | 0, M => (M, false)
  | k + 1, M =>
    let p := clearStep M N row column k
    if p.2 then (p.1, true) else clearAboveGo N row column k p.1

/-- Upward loop `for (rowCounter = row+1; rowCounter < eqCount; ...)`
(eqsolver.cpp 1004), with fuel `N - (row + 1)` counting the remaining
rows. -/
def clearBelowGo (N row column : Nat) : Nat → Nat → Mat → Mat × Bool
  | _, 0, M => (M, false)
  | r, k + 1, M =>
    if r < N then
      let p := clearStep M N row column r
      if p.2 then (p.1, true) else clearBelowGo N row column (r + 1) k p.1
    else (M, false)

/-- Inner pivot scan `while (rowCounter < eqCount)` (eqsolver.cpp
923-935): first row at or below `rowCounter` whose entry in `column` has
both numerator and denominator non-zero.  Fuel `N` always covers the scan
range. -/
def findPivotGo (M : Mat) (N column : Nat) : Nat → Nat → Option Nat
  | _, 0 => none
  | rowCounter, k + 1 =>
    if rowCounter < N then
      if (M rowCounter column).numerator ≠ 0 ∧ (M rowCounter column).denominator ≠ 0
      then some rowCounter
      else findPivotGo M N column (rowCounter + 1) k
    else none

/-- Scan for a row whose every entry (all `N + 1` columns) has numerator 0
(eqsolver.cpp 951-959; only the numerator is tested there). -/
def existsZeroNumRow (M : Mat) (N : Nat) : Bool :=
  (List.range N).any fun r =>
    (List.range (N + 1)).all fun c => (M r c).numerator == 0

/-- Outcome of the pivot-hunting phase. -/
inductive PivotOutcome where
  | found (M : Mat) (column : Nat)
  | infinite
  | noSolutions

/-- Terminal classification when the pivot search exhausts the columns
(eqsolver.cpp 942-962, entered with `column = N`): a sentinel
right-hand-side cell of the current row means INFINITE_SOLUTIONS;
otherwise an all-zero-numerator row still means INFINITE_SOLUTIONS, and
only then NO_SOLUTIONS. -/
def classify (M : Mat) (N row column : Nat) : PivotOutcome :=
  if (M row column).numerator = 0 ∧ (M row column).denominator = 0 then
    PivotOutcome.infinite
  else if existsZeroNumRow M N then PivotOutcome.infinite
  else PivotOutcome.noSolutions

/-- Outer pivot search `while (!nonZeroFound)` (eqsolver.cpp 921-965):
scan below the current row in the current column; on success swap the
found row up (1-indexed swap as in the source); on failure advance the
column, classifying when the columns are exhausted.  The fuel (called
with `N`) bounds the column advances; it can only run out after the
`column + 1 = N` test has fired, so the fuel-exhausted value is never
reached from the solver's call sites. -/
def pivotSearchGo (M : Mat) (N row : Nat) : Nat → Nat → PivotOutcome
  | column, 0 =>
    match findPivotGo M N column (row + 1) N with
    | some r => PivotOutcome.found (swapRowsC (row + 1) (r + 1) M N) column
    | none =>
      if column + 1 = N then classify M N row (column + 1)
      else PivotOutcome.noSolutions
  | column, k + 1 =>
    match findPivotGo M N column (row + 1) N with
    | some r => PivotOutcome.found (swapRowsC (row + 1) (r + 1) M N) column
    | none =>
      if column + 1 = N then classify M N row (column + 1)
      else pivotSearchGo M N row (column + 1) k

/-- Top of one `while (column < eqCount)` iteration (eqsolver.cpp
914-966): if the current cell is the sentinel, hunt for a pivot,
otherwise the current matrix and column stand. -/
def pivotPhase (M : Mat) (N row column : Nat) : PivotOutcome :=
  if (M row column).numerator = 0 ∧ (M row column).denominator = 0 then
    pivotSearchGo M N row column N
  else PivotOutcome.found M column

/-- The elimination loop of `eqsolver::solveSystem` (eqsolver.cpp
908-1033) on the local working matrix, with fuel for the outer loop (the
column index strictly increases each iteration, so fuel `N + 1` from
column 0 always suffices; exhausted fuel returns the matrix as-is, which
no solver call site can reach).  Early exits carry the status code. -/
def eliminateGo (N : Nat) : Nat → Nat → Nat → Mat → Except Nat Mat
  | 0, _, _, M => Except.ok M
  | fuel + 1, row, column, M =>
    if column < N then
      match pivotPhase M N row column with
      | PivotOutcome.infinite => Except.error INFINITE_SOLUTIONS
      | PivotOutcome.noSolutions => Except.error NO_SOLUTIONS
      | PivotOutcome.found M1 col =>
        let piv := M1 row col
        let step1 : Mat × Bool :=
          if piv.numerator = 1 ∧ piv.denominator = 1 ∧ piv.sign = 0 then (M1, false)
          else divideMatrixRowC (row + 1) piv M1 N false
        if step1.2 then Except.error OVERFLOW
        else
          let M2 := negateRowSigns step1.1 row N
          let above := clearAboveGo N row col row M2
          if above.2 then Except.error OVERFLOW
          else
            let below := clearBelowGo N row col (row + 1) (N - (row + 1)) above.1
            if below.2 then Except.error OVERFLOW
            else
              let M5 := negateRowSigns below.1 row N
              eliminateGo N fuel (row + 1) (col + 1) M5
    else Except.ok M

/-- The working copy made at the start of `eqsolver::solveSystem`
(eqsolver.cpp 886-906): cell-for-cell copy of the original's `N x (N+1)`
region.  Cells outside that region are never read by the engine; they are
modelled as the sentinel. -/
def copyMatrix (orig : Mat) (N : Nat) : Mat :=
  fun i j => if i < N ∧ j < N + 1 then orig i j else ⟨0, 0, 0⟩

/-- Inner loop of the verification pass (eqsolver.cpp 1057-1061):
accumulate `add(acc, multiply(orig[i][j], cand j))` over the columns,
aborting when an operation signals overflow.  (`solutionCheck`'s sign
word is uninitialized in the C code, but the first `add` short-circuits on
the 0/0 accumulator without reading it; it is modelled as 0.) -/
def checkRowGo (orig : Mat) (cand : Nat → Fraction) (N i : Nat) :
    Nat → Nat → Fraction → Fraction × Bool
  | _, 0, acc => (acc, false)
  | j, k + 1, acc =>
    if j < N then
      let p := multiply (orig i j) (cand j)
      let a := add acc p.1
      if p.2 || a.2 then (a.1, true)
      else checkRowGo orig cand N i (j + 1) k a.1
    else (acc, false)

/-- One row's verification sum (eqsolver.cpp 1053-1061). -/
def checkRow (orig : Mat) (cand : Nat → Fraction) (N i : Nat) : Fraction × Bool :=
  checkRowGo orig cand N i 0 N ⟨0, 0, 0⟩

/-- The verification pass over rows `i, i+1, ...` (eqsolver.cpp
1051-1067): overflow yields OVERFLOW, the first exact mismatch with the
original right-hand side yields NO_SOLUTIONS, and `none` means every row
verified.  Fuel `N` from row 0 covers the whole loop. -/
def verifyGo (orig : Mat) (cand : Nat → Fraction) (N : Nat) :
    Nat → Nat → Option Nat
  | _, 0 => none
  | i, k + 1 =>
    if i < N then
      let c := checkRow orig cand N i
      if c.2 then some OVERFLOW
      else if c.1 ≠ orig i N then some NO_SOLUTIONS
      else verifyGo orig cand N (i + 1) k
    else none

/-- Writing the solution vector (eqsolver.cpp 1070-1071):
`solutionCoefficient[i] = coeffPtr[i][eqCount]` for `i < n`. -/
def writeSolGo (old : List Fraction) (vals : Nat → Fraction) (n : Nat) :
    List Fraction :=
  (List.range n).foldl (fun acc i => acc.set i (vals i)) old

/-- Core of `eqsolver::solveSystem` minus the object bookkeeping: run elimination
on a fresh working copy of `orig`; then the final-diagonal test
(eqsolver.cpp 1036-1044), then verification; on full success report
SOLVED together with the final working matrix (whose augmented column is
the solution). -/
def solveCore (orig : Mat) (N : Nat) : Nat × Option Mat :=
  match eliminateGo N (N + 1) 0 0 (copyMatrix orig N) with
  | Except.error st => (st, none)
  | Except.ok work =>
    if (work (N - 1) (N - 1)).numerator = 0 ∧
        (work (N - 1) (N - 1)).denominator = 0 then
      if (work (N - 1) N).numerator = 0 ∧ (work (N - 1) N).denominator = 0 then
        (INFINITE_SOLUTIONS, none)
      else (NO_SOLUTIONS, none)
    else
      match verifyGo orig (fun j => work j N) N 0 N with
      | some st => (st, none)
      | none => (SOLVED, some work)

/-- Model of `eqsolver::solveSystem` (eqsolver.cpp 875-1074) as a state
transformer: the overflow flag is reset at entry and ends up set exactly
for an OVERFLOW status; the solution vector is overwritten only on
SOLVED; `coefficient`, `originalCoefficient` and `eqCount` are only read
(elimination works on a local allocation). -/
def solveSystem (s : EqState) : Nat × EqState :=
  let r := solveCore s.originalCoefficient s.eqCount
  match r.2 with
  | none => (r.1, { s with overFlow := r.1 == OVERFLOW })
  | some work =>
    (r.1, { s with
            overFlow := false
            solutionCoefficient :=
              writeSolGo s.solutionCoefficient (fun i => work i s.eqCount)
                s.eqCount })

/-- Signed value of a sign-magnitude numerator (spec side, for stating the
bound properties of `add`). -/
def signedNum (n s : Nat) : Int := if s = 1 then -(n : Int) else (n : Int)

/-- A value violates the signed 32-bit bounds (spec side). -/
def outOfInt32 (z : Int) : Prop := z < INT32MIN ∨ INT32MAX < z

instance (z : Int) : Decidable (outOfInt32 z) :=
  inferInstanceAs (Decidable (z < INT32MIN ∨ INT32MAX < z))

/-- A 2-equation system built through the accessor layer, rows given as
`[[a, b, c], [d, e, f]]`. -/
def mk2x2 (a b c d e f : Int) : EqState :=
  let s0 := (setSystemEqCount initialState 2).2
  let s1 := setCoefficient s0 1 1 a
  let s2 := setCoefficient s1 1 2 b
  let s3 := setCoefficient s2 1 3 c
  let s4 := setCoefficient s3 2 1 d
  let s5 := setCoefficient s4 2 2 e
  setCoefficient s5 2 3 f

/-- Dependent rows: `[[1,1,2],[2,2,4]]`. -/
def sys1State : EqState := mk2x2 1 1 2 2 2 4

/-- Contradictory rows: `[[1,1,2],[1,1,5]]`. -/
def sys2State : EqState := mk2x2 1 1 2 1 1 5

/-- Uniquely solvable rows: `[[2,1,5],[1,-1,1]]`. -/
def sys3State : EqState := mk2x2 2 1 5 1 (-1) 1

/-- A configured one-equation system (for concrete accessor tests). -/
def oneEqState : EqState := (setSystemEqCount initialState 1).2

/-! Helper lemmas about the embedded solver. -/

theorem writeSolGo_succ (old : List Fraction) (vals : Nat → Fraction) (n : Nat) :
    writeSolGo old vals (n + 1) = (writeSolGo old vals n).set n (vals n) := by
  unfold writeSolGo
  rw [List.range_succ, List.foldl_append]
  rfl

theorem writeSolGo_set_comm (vals : Nat → Fraction) :
    ∀ (n : Nat) (l : List Fraction) (m : Nat) (v : Fraction), n ≤ m →
      writeSolGo (l.set m v) vals n = (writeSolGo l vals n).set m v := by
  intro n
  induction n with
  | zero => intro l m v _; rfl
  | succ n ih =>
    intro l m v h
    rw [writeSolGo_succ, writeSolGo_succ, ih l m v (by omega),
      List.set_comm _ _ _ (by omega : m ≠ n)]

theorem writeSolGo_idem (vals : Nat → Fraction) :
    ∀ (n : Nat) (old : List Fraction),
      writeSolGo (writeSolGo old vals n) vals n = writeSolGo old vals n := by
  intro n
  induction n with
  | zero => intro old; rfl
  | succ n ih =>
    intro old
    rw [writeSolGo_succ old, writeSolGo_succ, writeSolGo_set_comm _ _ _ _ _ (le_refl n),
      ih, List.set_set]

theorem writeSolGo_length (vals : Nat → Fraction) :
    ∀ (n : Nat) (old : List Fraction),
      (writeSolGo old vals n).length = old.length := by
  intro n
  induction n with
  | zero => intro old; rfl
  | succ n ih => intro old; rw [writeSolGo_succ, List.length_set, ih]

theorem set_getD (l : List Fraction) :
    ∀ (i j : Nat) (v d : Fraction),
      (l.set i v).getD j d = if i = j ∧ j < l.length then v else l.getD j d := by
  induction l with
  | nil => intro i j v d; cases i <;> simp
  | cons a t ih =>
    intro i j v d
    cases i with
    | zero =>
      cases j with
      | zero => simp
      | succ j => simp
    | succ i =>
      cases j with
      | zero => simp
      | succ j =>
        rw [List.set_cons_succ, List.getD_cons_succ, List.getD_cons_succ, ih]
        by_cases h : i = j ∧ j < t.length
        · rw [if_pos h,
            if_pos (by simp only [List.length_cons]; omega :
              i + 1 = j + 1 ∧ j + 1 < (a :: t).length)]
        · rw [if_neg h, if_neg (by simp only [List.length_cons] at h ⊢; omega)]

theorem writeSolGo_getD (vals : Nat → Fraction) :
    ∀ (n : Nat) (old : List Fraction) (j : Nat) (d : Fraction), j < n →
      j < old.length → (writeSolGo old vals n).getD j d = vals j := by
  intro n
  induction n with
  | zero => intro old j d h _; omega
  | succ n ih =>
    intro old j d h hl
    rw [writeSolGo_succ, set_getD]
    by_cases he : n = j
    · subst he
      rw [if_pos ⟨rfl, by rw [writeSolGo_length]; exact hl⟩]
    · rw [if_neg (by simp [he])]
      exact ih old j d (by omega) hl

theorem solveSystem_eqCount (s : EqState) : (solveSystem s).2.eqCount = s.eqCount := by
  unfold solveSystem
  cases h : (solveCore s.originalCoefficient s.eqCount).2 <;> simp [h]

theorem solveSystem_originalCoefficient (s : EqState) :
    (solveSystem s).2.originalCoefficient = s.originalCoefficient := by
  unfold solveSystem
  cases h : (solveCore s.originalCoefficient s.eqCount).2 <;> simp [h]

theorem solveSystem_coefficient (s : EqState) :
    (solveSystem s).2.coefficient = s.coefficient := by
  unfold solveSystem
  cases h : (solveCore s.originalCoefficient s.eqCount).2 <;> simp [h]

theorem solveSystem_status (s : EqState) :
    (solveSystem s).1 = (solveCore s.originalCoefficient s.eqCount).1 := by
  unfold solveSystem
  cases h : (solveCore s.originalCoefficient s.eqCount).2 <;> simp [h]

theorem solveSystem_solution (s : EqState) :
    (solveSystem s).2.solutionCoefficient =
      match (solveCore s.originalCoefficient s.eqCount).2 with
      | none => s.solutionCoefficient
      | some work =>
        writeSolGo s.solutionCoefficient (fun i => work i s.eqCount) s.eqCount := by
  unfold solveSystem
  cases h : (solveCore s.originalCoefficient s.eqCount).2 <;> simp [h]

theorem verifyGo_some_range (orig : Mat) (cand : Nat → Fraction) (N : Nat) :
    ∀ (k i st : Nat), verifyGo orig cand N i k = some st →
      st = OVERFLOW ∨ st = NO_SOLUTIONS := by
  intro k
  induction k with
  | zero => intro i st h; simp [verifyGo] at h
  | succ k ih =>
    intro i st h
    simp only [verifyGo] at h
    split at h
    · split at h
      · exact Or.inl (Option.some.inj h).symm
      · split at h
        · exact Or.inr (Option.some.inj h).symm
        · exact ih (i + 1) st h
    · simp at h

theorem verifyGo_none_rows (orig : Mat) (cand : Nat → Fraction) (N : Nat) :
    ∀ (k i : Nat), verifyGo orig cand N i k = none → N - i ≤ k →
      ∀ m, i ≤ m → m < N → checkRow orig cand N m = (orig m N, false) := by
  intro k
  induction k with
  | zero => intro i _ hk m him hm; omega
  | succ k ih =>
    intro i h hk m him hm
    simp only [verifyGo] at h
    split at h
    · split at h
      · simp at h
      · split at h
        · simp at h
        · rcases Nat.eq_or_lt_of_le him with he | hlt
          · subst he
            rename_i hov hne
            rcases hp : checkRow orig cand N i with ⟨v, b⟩
            rw [hp] at hov hne
            simp only [not_not] at hne
            cases b with
            | false => rw [Prod.ext_iff]; exact ⟨by simpa using hne, rfl⟩
            | true => exact absurd rfl hov
          · exact ih (i + 1) h (by omega) m (by omega) hm
    · omega

theorem checkRowGo_congr (orig : Mat) (f g : Nat → Fraction) (N i : Nat)
    (hfg : ∀ j, j < N → f j = g j) :
    ∀ (k j : Nat) (acc : Fraction),
      checkRowGo orig f N i j k acc = checkRowGo orig g N i j k acc := by
  intro k
  induction k with
  | zero => intro j acc; rfl
  | succ k ih =>
    intro j acc
    simp only [checkRowGo]
    split
    · rename_i hj
      rw [hfg j hj, ih]
    · rfl

theorem eliminateGo_error_range (N : Nat) :
    ∀ (fuel row column : Nat) (M : Mat) (st : Nat),
      eliminateGo N fuel row column M = Except.error st →
      st = NO_SOLUTIONS ∨ st = INFINITE_SOLUTIONS ∨ st = OVERFLOW := by
  intro fuel
  induction fuel with
  | zero => intro row column M st h; simp [eliminateGo] at h
  | succ fuel ih =>
    intro row column M st h
    simp only [eliminateGo] at h
    split at h
    · split at h
      · exact Or.inr (Or.inl (Except.error.inj h).symm)
      · exact Or.inl (Except.error.inj h).symm
      · iterate 4 all_goals try split at h
        all_goals
          first
            | exact Or.inr (Or.inr (Except.error.inj h).symm)
            | exact ih _ _ _ st h
    · simp at h

theorem solveCore_solved (orig : Mat) (N : Nat)
    (h : (solveCore orig N).1 = SOLVED) :
    ∃ work, (solveCore orig N).2 = some work ∧
      verifyGo orig (fun j => work j N) N 0 N = none := by
  unfold solveCore at h ⊢
  cases hE : eliminateGo N (N + 1) 0 0 (copyMatrix orig N) with
  | error st =>
    rw [hE] at h
    dsimp only at h
    rcases eliminateGo_error_range N _ _ _ _ st hE with h2 | h2 | h2 <;>
      (rw [h2] at h; simp [NO_SOLUTIONS, INFINITE_SOLUTIONS, OVERFLOW, SOLVED] at h)
  | ok work =>
    rw [hE] at h
    dsimp only at h
    dsimp only
    by_cases hdiag : (work (N - 1) (N - 1)).numerator = 0 ∧
        (work (N - 1) (N - 1)).denominator = 0
    · rw [if_pos hdiag] at h
      split at h <;> simp [INFINITE_SOLUTIONS, NO_SOLUTIONS, SOLVED] at h
    · rw [if_neg hdiag] at h
      rw [if_neg hdiag]
      cases hV : verifyGo orig (fun j => work j N) N 0 N with
      | some st =>
        try rw [hV] at h
        dsimp only at h
        rcases verifyGo_some_range orig _ N N 0 st hV with h2 | h2 <;>
          (rw [h2] at h; simp [NO_SOLUTIONS, OVERFLOW, SOLVED] at h)
      | none =>
        try rw [hV]
        exact ⟨work, rfl, hV⟩

/-! Claim theorems. -/

/-- C1: the overflow boundary of `multiply` is not the unsigned 32-bit
maximum 4294967295: the numerator product 65536 * 65537 = 4295032832
exceeds that maximum, yet `multiply` leaves the overflow signal clear and
silently truncates the stored numerator mod 2^32 to 65536, because the
checked constant `UINT32MAX` is 42946972195 (a typo for 4294967295: the
macro name and the header comment both intend the unsigned 32-bit
maximum). -/
theorem multiply_silent_truncation :
    4294967295 < 65536 * 65537 ∧
    multiply ⟨65536, 1, 0⟩ ⟨65537, 1, 0⟩ = (⟨65536, 1, 0⟩, false) ∧
    UINT32MAX = 42946972195 := by decide

/-- C3: the three degeneracy scenarios: dependent rows `[[1,1,2],[2,2,4]]`
give INFINITE_SOLUTIONS, contradictory rows `[[1,1,2],[1,1,5]]` give
NO_SOLUTIONS, and `[[2,1,5],[1,-1,1]]` gives SOLVED with solution vector
`(2, 1)`. -/
theorem degeneracy_scenarios :
    (solveSystem sys1State).1 = INFINITE_SOLUTIONS ∧
    (solveSystem sys2State).1 = NO_SOLUTIONS ∧
    (solveSystem sys3State).1 = SOLVED ∧
    (solveSystem sys3State).2.solutionCoefficient = [⟨2, 1, 0⟩, ⟨1, 1, 0⟩] := by
  exact ⟨by decide, by decide, by decide, by decide⟩

/-- C8: reduce is canonical on the three stated cases: `6/9` with sign 0
reduces to `(2,3,0)`, numerator 0 over denominator 5 collapses to the
zero sentinel `(0,0,0)` whatever the sign word, and `4/4` with sign 1
reduces to `(1,1,1)`. -/
theorem reduce_canonical :
    reduce ⟨6, 9, 0⟩ = ⟨2, 3, 0⟩ ∧ (∀ sg : Nat, reduce ⟨0, 5, sg⟩ = ⟨0, 0, 0⟩) ∧
    reduce ⟨4, 4, 1⟩ = ⟨1, 1, 1⟩ :=
  ⟨by decide, fun sg => by simp [reduce], by decide⟩

/-- C6: `solveSystem` never mutates the original matrix: both original
coefficient accessors read back the same value before and after a solve,
for every state and every row and column (in range or not), whatever the
returned status. -/
theorem solve_preserves_original_matrix (s : EqState) (row column : Nat) :
    getOriginalMatrixCoefficient (solveSystem s).2 row column
      = getOriginalMatrixCoefficient s row column ∧
    getOriginalMatrixCoefficientFraction (solveSystem s).2 row column
      = getOriginalMatrixCoefficientFraction s row column := by
  unfold getOriginalMatrixCoefficient getOriginalMatrixCoefficientFraction
  rw [solveSystem_eqCount, solveSystem_originalCoefficient]
  exact ⟨rfl, rfl⟩

/-- C10: `solveSystem` eliminates only on a fresh local working matrix
and never touches the member working matrix `coefficient`: the altered
matrix accessor reads back the same value before and after any solve. -/
theorem solve_preserves_member_working_matrix (s : EqState) (row column : Nat)
    (coefficientValue : Fraction) :
    getAlteredMatrixCoefficient (solveSystem s).2 row column coefficientValue
      = getAlteredMatrixCoefficient s row column coefficientValue := by
  unfold getAlteredMatrixCoefficient
  rw [solveSystem_eqCount, solveSystem_coefficient]

/-- C7: solving twice without reconfiguring yields the same status both
times and leaves the solution vector identical after the second call
(the second call overwrites it with the same values when SOLVED and does
not touch it otherwise). -/
theorem solve_idempotent (s : EqState) :
    (solveSystem (solveSystem s).2).1 = (solveSystem s).1 ∧
    (solveSystem (solveSystem s).2).2.solutionCoefficient
      = (solveSystem s).2.solutionCoefficient := by
  have hcore : solveCore (solveSystem s).2.originalCoefficient
      (solveSystem s).2.eqCount = solveCore s.originalCoefficient s.eqCount := by
    rw [solveSystem_originalCoefficient, solveSystem_eqCount]
  constructor
  · rw [solveSystem_status, solveSystem_status, hcore]
  · rw [solveSystem_solution, solveSystem_solution, hcore, solveSystem_eqCount]
    cases h : (solveCore s.originalCoefficient s.eqCount).2 with
    | none => rfl
    | some work =>
      dsimp only
      exact writeSolGo_idem _ s.eqCount s.solutionCoefficient

/-- C2: when `solveSystem` reports SOLVED, re-substituting the produced
solution vector into every row of the original matrix reproduces that
row's constant term exactly — same numerator, same denominator, same
sign, with no overflow along the sum; and whenever a row's verification
sum computes without overflow but differs from the row's constant term,
the verification pass returns NO_SOLUTIONS on the spot, so such a system
is never reported SOLVED. -/
theorem solved_implies_exact_resubstitution :
    (∀ s : EqState, s.solutionCoefficient.length = s.eqCount →
      (solveSystem s).1 = SOLVED →
      ∀ i, i < s.eqCount →
        checkRow s.originalCoefficient
          (fun j => ((solveSystem s).2.solutionCoefficient).getD j ⟨0, 0, 0⟩)
          s.eqCount i
          = (s.originalCoefficient i s.eqCount, false)) ∧
    (∀ (orig : Mat) (cand : Nat → Fraction) (N i k : Nat) (v : Fraction),
      i < N → checkRow orig cand N i = (v, false) → v ≠ orig i N →
      verifyGo orig cand N i (k + 1) = some NO_SOLUTIONS) := by
  constructor
  · intro s hlen hst
    have hst2 : (solveCore s.originalCoefficient s.eqCount).1 = SOLVED := by
      rw [← solveSystem_status]; exact hst
    obtain ⟨work, hw, hver⟩ := solveCore_solved _ _ hst2
    intro i hi
    have hsol : (solveSystem s).2.solutionCoefficient =
        writeSolGo s.solutionCoefficient (fun k => work k s.eqCount) s.eqCount := by
      rw [solveSystem_solution, hw]
    have hcand : ∀ j, j < s.eqCount →
        ((solveSystem s).2.solutionCoefficient).getD j ⟨0, 0, 0⟩
          = work j s.eqCount := by
      intro j hj
      rw [hsol]
      exact writeSolGo_getD _ s.eqCount s.solutionCoefficient j _ hj (by omega)
    have hrows := verifyGo_none_rows s.originalCoefficient
      (fun j => work j s.eqCount) s.eqCount s.eqCount 0 hver (by omega) i
      (Nat.zero_le i) hi
    unfold checkRow at hrows ⊢
    rw [checkRowGo_congr s.originalCoefficient _ (fun j => work j s.eqCount)
      s.eqCount i hcand]
    exact hrows
  · intro orig cand N i k v hi hc hv
    simp only [verifyGo, if_pos hi, hc]
    simp [hv]

/-- Witness for C2: the solved system `[[2,1,5],[1,-1,1]]` verifies its
first original row exactly, and a concrete mismatching row makes the
verification pass answer NO_SOLUTIONS. -/
theorem solved_implies_exact_resubstitution_witness :
    checkRow sys3State.originalCoefficient
      (fun j => ((solveSystem sys3State).2.solutionCoefficient).getD j ⟨0, 0, 0⟩)
      sys3State.eqCount 0
      = (sys3State.originalCoefficient 0 sys3State.eqCount, false) ∧
    verifyGo (fun _ _ => ⟨1, 1, 0⟩) (fun _ => ⟨2, 1, 0⟩) 1 0 1 = some NO_SOLUTIONS :=
  ⟨solved_implies_exact_resubstitution.1 sys3State (by decide) (by decide) 0
      (by decide),
   solved_implies_exact_resubstitution.2 (fun _ _ => ⟨1, 1, 0⟩) (fun _ => ⟨2, 1, 0⟩)
      1 0 0 ⟨2, 1, 0⟩ (by decide) (by decide) (by decide)⟩

/-- Counterexample for C4: with a negative numerator, a zero denominator
does not store the canonical zero sentinel: the sign word stays 1, because
the sign computation treats the zero denominator as non-negative. -/
theorem setfrac_zero_denominator_counterexample :
    (setCoefficientFraction oneEqState 1 1 (-5) 0).originalCoefficient 0 0
      = ⟨0, 0, 1⟩ ∧
    (setCoefficientFraction oneEqState 1 1 (-5) 0).coefficient 0 0 = ⟨0, 0, 1⟩ ∧
    (⟨0, 0, 1⟩ : Fraction) ≠ ⟨0, 0, 0⟩ := by
  exact ⟨by decide, by decide, by decide⟩

/-- C4 (amended): for every in-range row and column, calling
`setCoefficientFraction` with denominator 0 stores numerator 0 and
denominator 0 in both matrices, with sign word 0 for a non-negative
numerator and sign word 1 for a negative numerator — the canonical
(0,0,0) sentinel therefore results exactly when the numerator is
non-negative. -/
theorem setfrac_zero_denominator (s : EqState) (row column : Nat) (num : Int)
    (h1 : 1 ≤ row) (h2 : row ≤ s.eqCount) (h3 : 1 ≤ column)
    (h4 : column ≤ s.eqCount + 1) :
    (setCoefficientFraction s row column num 0).coefficient (row - 1) (column - 1)
      = ⟨0, 0, if num < 0 then 1 else 0⟩ ∧
    (setCoefficientFraction s row column num 0).originalCoefficient
        (row - 1) (column - 1)
      = ⟨0, 0, if num < 0 then 1 else 0⟩ := by
  have hb : ¬(s.eqCount < row ∨ s.eqCount + 1 < column ∨ row < 1 ∨ column < 1) := by
    omega
  simp only [setCoefficientFraction, if_neg hb, setCell]
  constructor <;>
    · rw [if_pos ⟨trivial, trivial⟩]
      by_cases hn : num < 0
      · simp [hn]
      · simp [hn]

/-- Witness for C4 (amended), at row 1, column 1 of a configured
one-equation system with numerator -5. -/
theorem setfrac_zero_denominator_witness :
    (setCoefficientFraction oneEqState 1 1 (-5) 0).coefficient 0 0
      = ⟨0, 0, if (-5 : Int) < 0 then 1 else 0⟩ ∧
    (setCoefficientFraction oneEqState 1 1 (-5) 0).originalCoefficient 0 0
      = ⟨0, 0, if (-5 : Int) < 0 then 1 else 0⟩ :=
  setfrac_zero_denominator oneEqState 1 1 (-5) (by decide) (by decide) (by decide)
    (by decide)

/-- Counterexample for C5: dividing by the zero sentinel does not return
the dividend: both cross products are zero, so the zero-denominator guard
(which demands a non-zero numerator) does not fire, and `reduce` collapses
the 0/0 result to the zero sentinel. -/
theorem divide_sentinel_counterexample :
    divide ⟨3, 4, 0⟩ ⟨0, 0, 0⟩ = (⟨0, 0, 0⟩, false) ∧
    (⟨0, 0, 0⟩ : Fraction) ≠ ⟨3, 4, 0⟩ := by
  exact ⟨by decide, by decide⟩

/-- C5 (amended): the zero-division guard fires exactly when the computed
result denominator is zero while the computed result numerator is not
(for instance, a divisor with numerator 0 but denominator non-zero), and
then the dividend is returned unaltered with no overflow signal; dividing
by the zero sentinel itself bypasses the guard (the computed numerator is
also zero) and yields the zero sentinel with no overflow signal. -/
theorem divide_zero_result_guard :
    (∀ dividend divisor : Fraction,
      dividend.numerator * divisor.denominator ≤ UINT32MAX →
      dividend.denominator * divisor.numerator ≤ UINT32MAX →
      dividend.numerator * divisor.denominator % U32MOD ≠ 0 →
      dividend.denominator * divisor.numerator % U32MOD = 0 →
      divide dividend divisor = (dividend, false)) ∧
    (∀ dividend : Fraction, divide dividend ⟨0, 0, 0⟩ = (⟨0, 0, 0⟩, false)) := by
  constructor
  · intro dividend divisor hnc hdc hrn hrd
    unfold divide
    rw [if_neg (by omega), if_neg (by omega), if_pos ⟨hrn, hrd⟩]
  · intro dividend
    unfold divide
    simp [reduce, UINT32MAX]

/-- Witness for C5 (amended): dividing 3/4 by the ill-formed value 0/5
trips the guard and returns the dividend; dividing 7/9 (negative) by the
zero sentinel yields the zero sentinel. -/
theorem divide_zero_result_guard_witness :
    divide ⟨3, 4, 0⟩ ⟨0, 5, 0⟩ = (⟨3, 4, 0⟩, false) ∧
    divide ⟨7, 9, 1⟩ ⟨0, 0, 0⟩ = (⟨0, 0, 0⟩, false) :=
  ⟨divide_zero_result_guard.1 ⟨3, 4, 0⟩ ⟨0, 5, 0⟩ (by decide) (by decide)
      (by decide) (by decide),
   divide_zero_result_guard.2 ⟨7, 9, 1⟩⟩

/-- Counterexample for C9: `add` on the non-sentinel pair -5/0 and
+3000000000/1 (differing signs).  The second operand's signed numerator,
3000000000, violates the signed 32-bit maximum, yet no overflow signal is
raised and the first operand is returned: the check at eqsolver.cpp line
587 re-tests the first operand's value instead of the second's, and with
the first operand's denominator 0 the later cross-product check cannot
catch it either. -/
theorem add_missing_numerator_check_counterexample :
    outOfInt32 (signedNum 3000000000 0) ∧
    add ⟨5, 0, 1⟩ ⟨3000000000, 1, 0⟩ = (⟨5, 0, 1⟩, false) := by
  exact ⟨by decide, by decide⟩

set_option maxHeartbeats 1600000 in
/-- C9 (amended): for fractions with non-zero denominators and differing
signs, every bound violation — either operand's signed numerator outside
the signed 32-bit range, either signed cross product outside it, or the
final signed sum outside it — makes `add` set the overflow signal and
return the zero-valued result.  (The miswired numerator re-test at source
line 587 is masked in this case: a too-large non-negative second
numerator is caught by the cross-product check, which scales it by the
first denominator, at least 1.) -/
theorem add_signed_bounds_checked (n1 d1 s1 n2 d2 s2 : Nat)
    (hd1 : 1 ≤ d1) (hd2 : 1 ≤ d2)
    (hsign : (s1 = 1 ∧ s2 = 0) ∨ (s1 = 0 ∧ s2 = 1))
    (hviol : outOfInt32 (signedNum n1 s1) ∨ outOfInt32 (signedNum n2 s2) ∨
      outOfInt32 (signedNum n1 s1 * (d2 : Int)) ∨
      outOfInt32 (signedNum n2 s2 * (d1 : Int)) ∨
      outOfInt32 (signedNum n1 s1 * (d2 : Int) + signedNum n2 s2 * (d1 : Int))) :
    add ⟨n1, d1, s1⟩ ⟨n2, d2, s2⟩ = (⟨0, 0, 0⟩, true) := by
  have hminv : INT32MIN = -2147483648 := rfl
  have hmaxv : INT32MAX = 2147483647 := rfl
  have h01 : ((0 : Nat) = 1) = False := by simp
  have h11 : ((1 : Nat) = 1) = True := by simp
  have h10 : ((1 : Nat) = 0) = False := by simp
  have h00 : ((0 : Nat) = 0) = True := by simp
  rcases hsign with ⟨hs1, hs2⟩ | ⟨hs1, hs2⟩
  · subst hs1; subst hs2
    have hm2 : (n2 : Int) ≤ (n2 : Int) * (d1 : Int) :=
      le_mul_of_one_le_right (Int.ofNat_nonneg n2) (by exact_mod_cast hd1)
    simp only [signedNum, outOfInt32, h01, h11, h10, h00, if_true, if_false,
      true_and, and_true, false_and, and_false] at hviol
    simp only [add, h01, h11, h10, h00, if_true, if_false, true_and, and_true,
      false_and, and_false]
    split_ifs with hz1 hz2 hA hB hC hD hE2
    · exact absurd hz1 (by omega)
    · exact absurd hz2 (by omega)
    · rfl
    · rfl
    · rfl
    · rfl
    · rfl
    all_goals
      exfalso
      push_neg at hA hB hC hD hE2
      rcases hviol with (hv | hv) | (hv | hv) | (hv | hv) | (hv | hv) | (hv | hv) <;>
        linarith [Int.ofNat_nonneg n1, Int.ofNat_nonneg n2, hm2]
  · subst hs1; subst hs2
    have hm1 : (n1 : Int) ≤ (n1 : Int) * (d2 : Int) :=
      le_mul_of_one_le_right (Int.ofNat_nonneg n1) (by exact_mod_cast hd2)
    simp only [signedNum, outOfInt32, h01, h11, h10, h00, if_true, if_false,
      true_and, and_true, false_and, and_false] at hviol
    simp only [add, h01, h11, h10, h00, if_true, if_false, true_and, and_true,
      false_and, and_false]
    split_ifs with hz1 hz2 hA hB hC hD hE2
    · exact absurd hz1 (by omega)
    · exact absurd hz2 (by omega)
    · rfl
    · rfl
    · rfl
    · rfl
    · rfl
    all_goals
      exfalso
      push_neg at hA hB hC hD hE2
      rcases hviol with (hv | hv) | (hv | hv) | (hv | hv) | (hv | hv) | (hv | hv) <;>
        linarith [Int.ofNat_nonneg n1, Int.ofNat_nonneg n2, hm1]

/-- Witness for C9 (amended): the pair -2200000000/1 and 1/1 has a first
signed numerator below the signed 32-bit minimum, and `add` signals
overflow with the zero result. -/
theorem add_signed_bounds_checked_witness :
    add ⟨2200000000, 1, 1⟩ ⟨1, 1, 0⟩ = (⟨0, 0, 0⟩, true) :=
  add_signed_bounds_checked 2200000000 1 1 1 1 0 (by decide) (by decide)
    (Or.inl ⟨rfl, rfl⟩) (Or.inl (by decide))
